import Mathlib

/-!
Verification of the request-rate-limiting gate of esrb-slate-gen-webui.

The gate is the `proxy` function of `src/proxy.ts`: a Next.js middleware that
rate-limits requests to `/api/generate` using a per-IP counter held in an
`lru-cache` instance (`max: 500`, `ttl: 15 minutes`).  The middleware itself is
translated from the source; the `lru-cache` store (a third-party dependency
whose source is not part of the repository) is modelled from the spec's
description of the LimiterStore: TTL-expiring, LRU-evicting, bounded map whose
time-to-live is refreshed to the full window on every `set` (spec section 4.1
step 4) and whose entries expire when their age reaches the window duration.
-/

namespace EsrbGate

/-- Source: `const RATE_LIMIT_WINDOW = 15 * 60 * 1000` (milliseconds). -/
def RATE_LIMIT_WINDOW : Nat := 15 * 60 * 1000

/-- Source: `max: 500` in the `LRUCache` options — maximum number of IPs tracked. -/
def MAX_TRACKED_IPS : Nat := 500

/-- Source: `Math.ceil(RATE_LIMIT_WINDOW / 1000)`, the Retry-After value in
seconds, written as ceiling division on naturals. -/
def retryAfterSeconds : Nat := (RATE_LIMIT_WINDOW + 1000 - 1) / 1000

/-- The protected path, source: `request.nextUrl.pathname.startsWith('/api/generate')`. -/
def GEN_PATH : String := "/api/generate"

/-- `big.startsWith small` on character lists (structural model of
`String.startsWith`, used so that the kernel can evaluate it). -/
def isPre : List Char → List Char → Bool
  | [], _ => true
  | _, [] => false
  | c :: cs, d :: ds => c == d && isPre cs ds

/-- `p.startsWith('/api/generate')` — the path-match test of the middleware. -/
def matchesGenPath (p : String) : Bool := isPre GEN_PATH.data p.data

/-- The first comma-separated segment of a character list: the characters up to
(excluding) the first comma.  This is `s.split(',')[0]` of the source, which is
total because JavaScript `split` always returns at least one element. -/
def firstSeg : List Char → List Char
  | [] => []
  | c :: cs => if c = ',' then [] else c :: firstSeg cs

/-- Source line: `request.headers.get('x-forwarded-for')?.split(',')[0] ?? 'unknown'`.
`none` models an absent header (`headers.get` returned `null`). -/
def clientKeyOf (h : Option String) : String :=
  match h with
  | some s => String.mk (firstSeg s.data)
  | none => "unknown"

/-- A JavaScript number as produced by `Number(string)`: NaN, a signed
infinity, or a finite value.  A finite value is carried as the exact
mathematical (rational) value of the numeric literal; the JS runtime further
rounds that value to the nearest IEEE-754 double.  That rounding is the
identity on dyadic rationals in range — in particular on every integer of
magnitude at most 2^53 and on 0 — and the theorems below confine their claims
to that subdomain, where the model and the runtime agree exactly. -/
inductive JsNumber where
  | nan
  | inf (neg : Bool)
  | fin (q : Rat)
  deriving DecidableEq

/-- ECMAScript StrWhiteSpace: WhiteSpace (TAB VT FF SP NBSP ZWNBSP and the
Unicode Space_Separator class) or LineTerminator (LF CR LS PS). -/
def isJsWhite (c : Char) : Bool :=
  let n := c.toNat
  n == 0x9 || n == 0xA || n == 0xB || n == 0xC || n == 0xD || n == 0x20 ||
  n == 0xA0 || n == 0x1680 || (decide (0x2000 ≤ n) && decide (n ≤ 0x200A)) ||
  n == 0x2028 || n == 0x2029 || n == 0x202F || n == 0x205F || n == 0x3000 ||
  n == 0xFEFF

/-- Strip leading and trailing StrWhiteSpace. -/
def trimWS (cs : List Char) : List Char :=
  ((cs.dropWhile isJsWhite).reverse.dropWhile isJsWhite).reverse

/-- The natural number denoted by a list of decimal digits. -/
def digitsToNat (cs : List Char) : Nat :=
  cs.foldl (fun a c => a * 10 + (c.toNat - 48)) 0

/-- Hexadecimal digit test. -/
def isHexDig (c : Char) : Bool :=
  let n := c.toNat
  (decide (48 ≤ n) && decide (n ≤ 57)) || (decide (97 ≤ n) && decide (n ≤ 102)) ||
  (decide (65 ≤ n) && decide (n ≤ 70))

/-- Hexadecimal digit value (on hexadecimal digits). -/
def hexDigVal (c : Char) : Nat :=
  let n := c.toNat
  if 48 ≤ n ∧ n ≤ 57 then n - 48
  else if 97 ≤ n ∧ n ≤ 102 then n - 87
  else n - 55

/-- Octal digit test. -/
def isOctDig (c : Char) : Bool :=
  let n := c.toNat
  decide (48 ≤ n) && decide (n ≤ 55)

/-- Binary digit test. -/
def isBinDig (c : Char) : Bool :=
  let n := c.toNat
  n == 48 || n == 49

/-- A NonDecimalIntegerLiteral body: a nonempty run of digits of the base, or
NaN. -/
def nonDecVal (base : Nat) (isD : Char → Bool) (toV : Char → Nat)
    (cs : List Char) : JsNumber :=
  if cs ≠ [] ∧ cs.all isD then
    JsNumber.fin ((cs.foldl (fun a c => a * base + toV c) 0 : Nat) : Rat)
  else JsNumber.nan

/-- Does the (trimmed) literal start with a `0x`/`0o`/`0b` base marker?  Such a
literal can only be a NonDecimalIntegerLiteral (no sign allowed). -/
def isNonDecPre (cs : List Char) : Bool :=
  match cs with
  | '0' :: p :: _ =>
    p == 'x' || p == 'X' || p == 'o' || p == 'O' || p == 'b' || p == 'B'
  | _ => false

/-- Parse a NonDecimalIntegerLiteral (`0x`/`0X` hex, `0o`/`0O` octal, `0b`/`0B`
binary); NaN when the digit run is empty or has a digit outside the base. -/
def parseNonDec (cs : List Char) : JsNumber :=
  match cs with
  | '0' :: p :: rest =>
    if p = 'x' ∨ p = 'X' then nonDecVal 16 isHexDig hexDigVal rest
    else if p = 'o' ∨ p = 'O' then nonDecVal 8 isOctDig (fun c => c.toNat - 48) rest
    else if p = 'b' ∨ p = 'B' then nonDecVal 2 isBinDig (fun c => c.toNat - 48) rest
    else JsNumber.nan
  | _ => JsNumber.nan

/-- Parse the ExponentPart of a StrUnsignedDecimalLiteral, which must consume
the whole rest of the literal: empty rest means exponent 0; otherwise `e`/`E`,
an optional sign and a nonempty digit run. -/
def parseExpPart : List Char → Option Int
  | [] => some 0
  | c :: r =>
    if c = 'e' ∨ c = 'E' then
      let signed :=
        match r with
        | '+' :: r3 => (false, r3)
        | '-' :: r3 => (true, r3)
        | r3 => (false, r3)
      let ds := signed.2.takeWhile Char.isDigit
      let rest := signed.2.dropWhile Char.isDigit
      if ds ≠ [] ∧ rest = [] then
        some (if signed.1 then -(digitsToNat ds : Int) else (digitsToNat ds : Int))
      else none
    else none

/-- The exact rational value of integer digits, fraction digits and a decimal
exponent: `(I + F / 10^|fp|) * 10^ex`, built directly as the normalized
fraction `(I * 10^|fp| + F) * 10^ex / 10^|fp|` so that the kernel can evaluate
it. -/
def decValue (ip fp : List Char) (ex : Int) : Rat :=
  let m : Nat := digitsToNat ip * 10 ^ fp.length + digitsToNat fp
  let e2 : Int := ex - fp.length
  if 0 ≤ e2 then mkRat ((m * 10 ^ e2.toNat : Nat) : Int) 1
  else mkRat (m : Int) (10 ^ ((-e2).toNat))

/-- The result of a StrUnsignedDecimalLiteral: `Infinity` or a finite value. -/
inductive UDec where
  | infty
  | val (q : Rat)
  deriving DecidableEq

/-- Parse a StrUnsignedDecimalLiteral: `Infinity`, or decimal digits with an
optional dot, optional fraction digits and an optional exponent — at least one
digit before or after the dot; the literal must be consumed entirely. -/
def parseUnsignedDec (cs : List Char) : Option UDec :=
  if cs = "Infinity".data then some UDec.infty
  else
    let ip := cs.takeWhile Char.isDigit
    let r1 := cs.dropWhile Char.isDigit
    match r1 with
    | '.' :: r =>
      let fp := r.takeWhile Char.isDigit
      let r2 := r.dropWhile Char.isDigit
      if ip = [] ∧ fp = [] then none
      else
        match parseExpPart r2 with
        | some ex => some (UDec.val (decValue ip fp ex))
        | none => none
    | _ =>
      if ip = [] then none
      else
        match parseExpPart r1 with
        | some ex => some (UDec.val (decValue ip [] ex))
        | none => none

/-- Model of the ECMAScript StringToNumber conversion performed by
`Number(string)`: trim StrWhiteSpace; the empty remainder is 0; a `0x`/`0o`/
`0b`-prefixed remainder is a NonDecimalIntegerLiteral (signless); otherwise an
optional sign followed by `Infinity` or a decimal literal with optional
fraction and exponent; anything else is NaN.  Finite results carry the exact
value of the literal (see `JsNumber` for the double-rounding caveat). -/
def jsStringToNumber (s : String) : JsNumber :=
  let cs := trimWS s.data
  match cs with
  | [] => JsNumber.fin 0
  | _ =>
    if isNonDecPre cs then parseNonDec cs
    else
      let signed :=
        match cs with
        | '+' :: r => (false, r)
        | '-' :: r => (true, r)
        | r => (false, r)
      match parseUnsignedDec signed.2 with
      | none => JsNumber.nan
      | some UDec.infty => JsNumber.inf signed.1
      | some (UDec.val q) => JsNumber.fin (if signed.1 then -q else q)

/-- Source line 7: `Number(process.env.RATE_LIMIT_MAX_REQUESTS) || 30`.
The argument is the environment value (`none` when the variable is absent, in
which case `Number(undefined)` is NaN).  `x || 30` picks 30 exactly when the
coercion gives a falsy value, i.e. NaN or (positive or negative) zero; every
other result — negative, fractional or infinite included — is used as-is. -/
def RATE_LIMIT_MAX_REQUESTS (env : Option String) : JsNumber :=
  match env with
  | none => JsNumber.fin 30
  | some s =>
    match jsStringToNumber s with
    | JsNumber.nan => JsNumber.fin 30
    | JsNumber.inf b => JsNumber.inf b
    | JsNumber.fin q => if q = 0 then JsNumber.fin 30 else JsNumber.fin q

/-- The per-key record stored in the cache, source: `{ count: number; start: number }`. -/
structure WindowCounter where
  count : Nat
  start : Nat
  deriving DecidableEq

/-- A cache slot: key, stored value, and the time of the last `set` (which is
when the entry's time-to-live was last refreshed). -/
structure CacheEntry where
  key : String
  val : WindowCounter
  setTime : Nat
  deriving DecidableEq

/-- The LimiterStore: the entry list of the `lru-cache`, most recently used
first.  Invariant maintained by the operations: keys are distinct and the
length is at most `MAX_TRACKED_IPS`. -/
abbrev Store := List CacheEntry

/-- Find the slot of a key. -/
def findE (k : String) (st : Store) : Option CacheEntry :=
  st.find? (fun e => e.key == k)

/-- Remove the slot of a key. -/
def eraseKey (k : String) (st : Store) : Store :=
  st.filter (fun e => e.key != k)

/-- The stored value of a key, ignoring expiry. -/
def findVal (st : Store) (k : String) : Option WindowCounter :=
  (findE k st).map (fun e => e.val)

/-- Modelled from the spec: `lru-cache` `get` — the `rateLimitCache.get(ip)`
call.  The `lru-cache` source is not part of this repository; per the spec, an
entry is expired when its age (time since its time-to-live was last refreshed,
i.e. since its last `set`) is at least `RATE_LIMIT_WINDOW`; `get` of an expired
entry deletes it and reports absence, and `get` of a live entry returns its
value and marks it most recently used. -/
def lruGet (st : Store) (k : String) (now : Nat) : Option WindowCounter × Store :=
  match findE k st with
  | none => (none, st)
  | some e =>
    if RATE_LIMIT_WINDOW ≤ now - e.setTime then
      (none, eraseKey k st)
    else
      (some e.val, e :: eraseKey k st)

/-- Modelled from the spec: `lru-cache` `set` — the `rateLimitCache.set(ip, …)`
call.  The new slot becomes most recently used with its time-to-live refreshed
from `now`; least-recently-used slots beyond the `MAX_TRACKED_IPS` capacity are
evicted. -/
def lruSet (st : Store) (k : String) (v : WindowCounter) (now : Nat) : Store :=
  (({ key := k, val := v, setTime := now } : CacheEntry) :: eraseKey k st).take MAX_TRACKED_IPS

/-- What the middleware reads from a request: `request.nextUrl.pathname` and
`request.headers.get('x-forwarded-for')`. -/
structure Request where
  path : String
  xForwardedFor : Option String

/-- The observable part of the produced response: status, headers in the order
they are attached, and the body (`none` for the pass-through continuation,
which Next.js reports with status 200 in the reference environment). -/
structure Response where
  status : Nat
  headers : List (String × String)
  body : Option String
  deriving DecidableEq

/-- The `JSON.stringify({ error: 'Too Many Requests' })` body of the source. -/
def tooManyBody : String := "\x7b\"error\":\"Too Many Requests\"\x7d"

/-- The value of a response header. -/
def headerVal (r : Response) (name : String) : Option String :=
  (r.headers.find? (fun p => p.1 == name)).map (fun p => p.2)

/-- `token`: the counter used for this request — the live cached value, or a
fresh `{ count: 0, start: Date.now() }` (source line 26). -/
def tokenOf (st : Store) (k : String) (now : Nat) : WindowCounter :=
  (lruGet st k now).1.getD { count := 0, start := now }

/-- The response the middleware builds once `newCount` is known (source lines
42–62): the 429 branch when `newCount > limit`, otherwise the continuation
carrying the two rate-limit headers. -/
def respFor (limit : Int) (newCount : Nat) : Response :=
  if (newCount : Int) > limit then
    { status := 429,
      headers := [("Content-Type", "application/json"),
                  ("X-RateLimit-Limit", toString limit),
                  ("X-RateLimit-Remaining", "0"),
                  ("Retry-After", toString retryAfterSeconds)],
      body := some tooManyBody }
  else
    { status := 200,
      headers := [("X-RateLimit-Limit", toString limit),
                  ("X-RateLimit-Remaining", toString (max 0 (limit - newCount)))],
      body := none }

/-- The middleware `proxy` of `src/proxy.ts`, translated line by line.  `limit`
is the module constant `RATE_LIMIT_MAX_REQUESTS` (a function of the environment,
see `RATE_LIMIT_MAX_REQUESTS` above), passed as a parameter; `st` is the state
of `rateLimitCache` and `now` is `Date.now()`.  Returns the response and the
new cache state. -/
def proxy (limit : Int) (st : Store) (req : Request) (now : Nat) : Response × Store :=
  if matchesGenPath req.path then
    let ip := clientKeyOf req.xForwardedFor
    let got := lruGet st ip now
    let token := got.1.getD { count := 0, start := now }
    let newCount := token.count + 1
    let st2 := lruSet got.2 ip { count := newCount, start := token.start } now
    (respFor limit newCount, st2)
  else
    ({ status := 200, headers := [], body := none }, st)

/-- A request to the protected endpoint carrying the given forwarded-for header. -/
def genReq (h : Option String) : Request :=
  { path := GEN_PATH, xForwardedFor := h }

/-- A sequence of requests to the protected endpoint, all from the same
forwarded-for value `k`, issued at the given times: returns the final cache
state and the list of responses in order. -/
def runTimes (limit : Int) (k : String) : Store → List Nat → Store × List Response
  | st, [] => (st, [])
  | st, t :: ts =>
    let p := proxy limit st (genReq (some k)) t
    let r := runTimes limit k p.2 ts
    (r.1, p.1 :: r.2)

/-- The times following `prev` are nondecreasing with consecutive gaps shorter
than the window: under the TTL-refresh-per-touch policy this keeps the counter
alive across the whole run ("within one window"). -/
def gapsOk : Nat → List Nat → Bool
  | _, [] => true
  | prev, t :: ts => decide (prev ≤ t) && decide (t - prev < RATE_LIMIT_WINDOW) && gapsOk t ts

/-- The status of the i-th response of a run. -/
def statusAt (rs : List Response) (i : Nat) : Option Nat :=
  (rs[i]?).map Response.status

/-- The live value `get` would return for a key, without the recency side effect. -/
def liveVal (st : Store) (k : String) (now : Nat) : Option WindowCounter :=
  (lruGet st k now).1

lemma genReq_matched (h : Option String) : matchesGenPath (genReq h).path = true := rfl

lemma genPath_matched : matchesGenPath GEN_PATH = true := rfl

lemma liveVal_eq (st : Store) (k : String) (now : Nat) :
    liveVal st k now =
      match findE k st with
      | none => none
      | some e => if RATE_LIMIT_WINDOW ≤ now - e.setTime then none else some e.val := by
  cases h : findE k st with
  | none => simp [liveVal, lruGet, h]
  | some e =>
    simp only [liveVal, lruGet, h]
    split <;> rfl

lemma lruGet_fst_congr {s1 s2 : Store} {b : String} (hf : findE b s1 = findE b s2)
    (now : Nat) : (lruGet s1 b now).1 = (lruGet s2 b now).1 := by
  have h1 := liveVal_eq s1 b now
  have h2 := liveVal_eq s2 b now
  rw [liveVal] at h1 h2
  rw [h1, h2, hf]

lemma take_max_cons (e : CacheEntry) (l : Store) :
    (e :: l).take MAX_TRACKED_IPS = e :: l.take (MAX_TRACKED_IPS - 1) := rfl

lemma findVal_lruSet_self (st : Store) (k : String) (v : WindowCounter) (now : Nat) :
    findVal (lruSet st k v now) k = some v := by
  rw [lruSet, take_max_cons]
  simp [findVal, findE]

lemma proxy_matched (limit : Int) (st : Store) (req : Request) (now : Nat)
    (hm : matchesGenPath req.path = true) :
    proxy limit st req now =
      (respFor limit ((tokenOf st (clientKeyOf req.xForwardedFor) now).count + 1),
       lruSet ((lruGet st (clientKeyOf req.xForwardedFor) now).2)
         (clientKeyOf req.xForwardedFor)
         { count := (tokenOf st (clientKeyOf req.xForwardedFor) now).count + 1,
           start := (tokenOf st (clientKeyOf req.xForwardedFor) now).start } now) := by
  simp only [proxy, hm, if_true, tokenOf]

lemma findVal_proxy_snd (limit : Int) (st : Store) (now : Nat) (h : Option String) :
    findVal ((proxy limit st (genReq h) now).2) (clientKeyOf h) =
      some { count := (tokenOf st (clientKeyOf h) now).count + 1,
             start := (tokenOf st (clientKeyOf h) now).start } := by
  rw [proxy_matched limit st (genReq h) now (genReq_matched h)]
  exact findVal_lruSet_self _ _ _ _

lemma lruGet_snd_eq (st : Store) (k : String) (now : Nat) :
    (lruGet st k now).2 =
      match findE k st with
      | none => st
      | some e =>
        if RATE_LIMIT_WINDOW ≤ now - e.setTime then eraseKey k st
        else e :: eraseKey k st := by
  cases h : findE k st with
  | none => simp [lruGet, h]
  | some e =>
    simp only [lruGet, h]
    split <;> rfl

lemma findE_eraseKey {a b : String} (hne : b ≠ a) (st : Store) :
    findE b (eraseKey a st) = findE b st := by
  induction st with
  | nil => rfl
  | cons e l ih =>
    simp only [findE, eraseKey, List.filter_cons] at ih ⊢
    by_cases hea : e.key = a
    · have h2 : (e.key == b) = false := by
        rw [hea]
        exact beq_eq_false_iff_ne.mpr fun hab => hne hab.symm
      have h1 : (e.key != a) = false := by simp [hea]
      rw [h1]
      simp only [Bool.false_eq_true, if_false]
      rw [ih]
      simp [List.find?, h2]
    · have h1 : (e.key != a) = true := by simp [hea]
      rw [h1]
      simp only [if_true]
      cases hkb : e.key == b <;> simp [List.find?, hkb, ih]

lemma length_eraseKey_le (a : String) (st : Store) :
    (eraseKey a st).length ≤ st.length :=
  List.length_filter_le _ _

lemma length_eraseKey_lt {a : String} {st : Store} (hk : (findE a st).isSome = true) :
    (eraseKey a st).length < st.length := by
  rw [eraseKey]
  rw [List.length_filter_lt_length_iff_exists]
  obtain ⟨e, he⟩ := Option.isSome_iff_exists.mp hk
  refine ⟨e, List.mem_of_find?_eq_some he, ?_⟩
  have := List.find?_some he
  simp only [beq_iff_eq] at this
  simp [this]

lemma findE_lruGet_snd {a b : String} (hne : b ≠ a) (st : Store) (now : Nat) :
    findE b ((lruGet st a now).2) = findE b st := by
  rw [lruGet_snd_eq]
  cases hf : findE a st with
  | none => rfl
  | some e =>
    have hkey : e.key = a := by
      have := List.find?_some hf
      simpa using this
    simp only
    split
    · exact findE_eraseKey hne st
    · have h2 : (e.key == b) = false := by
        rw [hkey]
        exact beq_eq_false_iff_ne.mpr fun hab => hne hab.symm
      rw [findE]
      simp only [List.find?, h2]
      exact findE_eraseKey hne st

lemma length_lruGet_snd_le (a : String) (st : Store) (now : Nat) :
    ((lruGet st a now).2).length ≤ st.length := by
  rw [lruGet_snd_eq]
  cases hf : findE a st with
  | none => exact le_refl _
  | some e =>
    simp only
    split
    · exact length_eraseKey_le a st
    · simp only [List.length_cons]
      have : (eraseKey a st).length < st.length :=
        length_eraseKey_lt (by simp [hf])
      omega

lemma eraseKey_cons_self {a : String} {e : CacheEntry} (he : e.key = a) (l : Store) :
    eraseKey a (e :: l) = eraseKey a l := by
  simp [eraseKey, List.filter_cons, he]

lemma findE_lruSet_other {a b : String} (hne : b ≠ a) (st : Store) (v : WindowCounter)
    (now : Nat) (hlen : (eraseKey a st).length + 1 ≤ MAX_TRACKED_IPS) :
    findE b (lruSet st a v now) = findE b st := by
  rw [lruSet]
  rw [List.take_of_length_le (by simpa [List.length_cons] using hlen)]
  rw [findE]
  have h2 : ((({ key := a, val := v, setTime := now } : CacheEntry)).key == b) = false :=
    beq_eq_false_iff_ne.mpr fun hab => hne hab.symm
  simp only [List.find?, h2]
  exact findE_eraseKey hne st

/-- C6: a request whose path does not start with `/api/generate` passes through
untouched: status 200, no headers attached (in particular no `X-RateLimit-*`
headers, so it is never a 429 rejection), and the cache state is unchanged (no
counter read or written for any key). -/
theorem c6_passthrough_isolation (limit : Int) (st : Store) (req : Request) (now : Nat)
    (hm : matchesGenPath req.path = false) :
    (proxy limit st req now).1.status = 200 ∧
    (proxy limit st req now).1.headers = [] ∧
    (proxy limit st req now).2 = st := by
  simp [proxy, hm]

/-- C6 witness: a request to `/other-path` with heavy prior traffic and the
harshest possible ceiling still passes through with no headers and no state
change. -/
theorem c6_witness :
    (proxy 0 [⟨"1.1.1.1", ⟨99, 0⟩, 0⟩] ⟨"/other-path", some "1.1.1.1"⟩ 5).1.status = 200 ∧
    (proxy 0 [⟨"1.1.1.1", ⟨99, 0⟩, 0⟩] ⟨"/other-path", some "1.1.1.1"⟩ 5).1.headers = [] ∧
    (proxy 0 [⟨"1.1.1.1", ⟨99, 0⟩, 0⟩] ⟨"/other-path", some "1.1.1.1"⟩ 5).2 =
      [⟨"1.1.1.1", ⟨99, 0⟩, 0⟩] :=
  c6_passthrough_isolation 0 [⟨"1.1.1.1", ⟨99, 0⟩, 0⟩] ⟨"/other-path", some "1.1.1.1"⟩ 5
    (by decide)

/-- C10: for a matched request that finds a live counter, the produced response
is a function of the stored count and the ceiling alone: two evaluations at
different times, over different stores and requests, with equal stored counts,
produce identical responses. -/
theorem c10_time_independence (limit : Int) (st1 st2 : Store) (r1 r2 : Request)
    (t1 t2 : Nat) (v1 v2 : WindowCounter)
    (hm1 : matchesGenPath r1.path = true) (hm2 : matchesGenPath r2.path = true)
    (hv1 : liveVal st1 (clientKeyOf r1.xForwardedFor) t1 = some v1)
    (hv2 : liveVal st2 (clientKeyOf r2.xForwardedFor) t2 = some v2)
    (hc : v1.count = v2.count) :
    (proxy limit st1 r1 t1).1 = (proxy limit st2 r2 t2).1 := by
  rw [proxy_matched limit st1 r1 t1 hm1, proxy_matched limit st2 r2 t2 hm2]
  simp only [tokenOf]
  rw [liveVal] at hv1 hv2
  rw [hv1, hv2]
  simp [hc]

/-- C10 witness: stores with different `windowStart` and `setTime` values,
queried at different clock values, but with equal stored counts, yield the
same response. -/
theorem c10_witness :
    (proxy 30 [⟨"a", ⟨5, 0⟩, 0⟩] (genReq (some "a")) 0).1 =
    (proxy 30 [⟨"b", ⟨5, 100⟩, 200000⟩] (genReq (some "b")) 250000).1 :=
  c10_time_independence 30 [⟨"a", ⟨5, 0⟩, 0⟩] [⟨"b", ⟨5, 100⟩, 200000⟩]
    (genReq (some "a")) (genReq (some "b")) 0 250000 ⟨5, 0⟩ ⟨5, 100⟩
    (by decide) (by decide) (by decide) (by decide) (by decide)

/-- C4: whenever the incremented count exceeds the ceiling, the middleware
returns exactly the 429 response of the source: `Retry-After` is the string
form of `ceil(RATE_LIMIT_WINDOW / 1000)`, i.e. `"900"`, `X-RateLimit-Remaining`
is `"0"`, `X-RateLimit-Limit` is the string form of the ceiling, the body is
the JSON object `{"error":"Too Many Requests"}` and the `Content-Type` is
`application/json`. -/
theorem c4_reject_response_shape (limit : Int) (st : Store) (now : Nat) (h : Option String)
    (hover : (((tokenOf st (clientKeyOf h) now).count + 1 : Nat) : Int) > limit) :
    (proxy limit st (genReq h) now).1 =
      { status := 429,
        headers := [("Content-Type", "application/json"),
                    ("X-RateLimit-Limit", toString limit),
                    ("X-RateLimit-Remaining", "0"),
                    ("Retry-After", "900")],
        body := some ("\x7b\"error\":\"Too Many Requests\"\x7d") } := by
  have hpm := proxy_matched limit st (genReq h) now (genReq_matched h)
  have hx : (genReq h).xForwardedFor = h := rfl
  rw [hx] at hpm
  have := congrArg Prod.fst hpm
  simp only at this
  rw [this, respFor, if_pos hover]
  rfl

/-- C4 witness: with ceiling 2 and a stored count of 2 for the shared
`unknown` bucket, a header-less request is rejected with the exact 429
response. -/
theorem c4_witness :
    (proxy 2 [⟨"unknown", ⟨2, 0⟩, 0⟩] (genReq none) 0).1 =
      { status := 429,
        headers := [("Content-Type", "application/json"),
                    ("X-RateLimit-Limit", toString (2 : Int)),
                    ("X-RateLimit-Remaining", "0"),
                    ("Retry-After", "900")],
        body := some ("\x7b\"error\":\"Too Many Requests\"\x7d") } :=
  c4_reject_response_shape 2 [⟨"unknown", ⟨2, 0⟩, 0⟩] 0 none (by decide)

/-- C5 counterexample: the claim reads expiry as "age since windowStart is at
least windowDurationMs".  Three requests from one key at times 0, 800000 and
900000 ms: at the third, the age since `windowStart` (= 0) is exactly the
window duration 900000 ms, so the claim predicts a fresh counter
`{count: 1, windowStart: 900000}`; but the entry's time-to-live was refreshed
at the second request (time 800000), so it is still live and the stored
counter is `{count: 3, windowStart: 0}`. -/
theorem c5_counterexample :
    findVal ((runTimes 30 ("9.9.9.9") [] [0, 800000, 900000]).1) (clientKeyOf (some "9.9.9.9")) =
      some { count := 3, start := 0 } ∧
    findVal ((runTimes 30 ("9.9.9.9") [] [0, 800000, 900000]).1) (clientKeyOf (some "9.9.9.9")) ≠
      some { count := 1, start := 900000 } := by
  constructor
  · decide
  · decide

/-- C5 amended: on a matched request, if the stored WindowCounter for the
ClientKey is absent, or expired — its age since it was last stored (when its
time-to-live was last refreshed) is at least `windowDurationMs` — it is
treated as the fresh counter `{count: 0, windowStart: now}`, so the request is
stored as the first of a new window: `{count: 1, start: now}`. -/
theorem c5_fresh_window_amended (limit : Int) (st : Store) (now : Nat) (h : Option String)
    (hfresh : findE (clientKeyOf h) st = none ∨
      ∃ e, findE (clientKeyOf h) st = some e ∧ RATE_LIMIT_WINDOW ≤ now - e.setTime) :
    findVal ((proxy limit st (genReq h) now).2) (clientKeyOf h) =
      some { count := 1, start := now } := by
  have htok : tokenOf st (clientKeyOf h) now = { count := 0, start := now } := by
    rw [tokenOf]
    rcases hfresh with hf | ⟨e, hf, hexp⟩
    · simp [lruGet, hf]
    · simp [lruGet, hf, hexp]
  have hv := findVal_proxy_snd limit st now h
  rw [htok] at hv
  exact hv

/-- C5 amended witness: an entry stored at time 0 is expired at time 900000
(age exactly the window), so the request then is stored as the first of a new
window; and a key absent from the store also starts fresh. -/
theorem c5_witness :
    findVal ((proxy 30 [⟨"7.7.7.7", ⟨9, 0⟩, 0⟩] (genReq (some "7.7.7.7")) 900000).2)
      (clientKeyOf (some "7.7.7.7")) = some { count := 1, start := 900000 } :=
  c5_fresh_window_amended 30 [⟨"7.7.7.7", ⟨9, 0⟩, 0⟩] 900000 (some "7.7.7.7")
    (Or.inr ⟨⟨"7.7.7.7", ⟨9, 0⟩, 0⟩, by decide, by decide⟩)

/-- C8 counterexample: the claim says a malformed (but present) client-address
header degrades to the shared `"unknown"` bucket.  It does not: a request whose
`x-forwarded-for` value is the malformed string `"not-an-ip"` is counted in its
own `"not-an-ip"` bucket, and the `"unknown"` bucket is untouched. -/
theorem c8_counterexample :
    clientKeyOf (some "not-an-ip") = "not-an-ip" ∧
    clientKeyOf (some "not-an-ip") ≠ "unknown" ∧
    findVal ((proxy 30 [] (genReq (some "not-an-ip")) 0).2) ("not-an-ip") =
      some { count := 1, start := 0 } ∧
    findE ("unknown") ((proxy 30 [] (genReq (some "not-an-ip")) 0).2) = none := by
  refine ⟨by decide, by decide, by decide, by decide⟩

/-- C8 amended: for every matched request the ClientKey is the first
comma-separated entry of the `x-forwarded-for` value when the header is
present (a malformed value is bucketed under its own first entry, not under
`"unknown"`), and the sentinel `"unknown"` exactly when the header is absent;
the gate is a total function — every matched request is counted under that key
without raising an error. -/
theorem c8_client_key_amended (limit : Int) (st : Store) (now : Nat) (h : Option String) :
    (findVal ((proxy limit st (genReq h) now).2) (clientKeyOf h)).isSome = true ∧
    clientKeyOf none = "unknown" ∧
    (∀ s : String, clientKeyOf (some s) = String.mk (firstSeg s.data)) := by
  refine ⟨?_, rfl, fun s => rfl⟩
  rw [findVal_proxy_snd limit st now h]
  rfl

/-- C3 counterexample: the claim says a string that is not a valid
positive-integer string yields the default ceiling 30.  The override `"-5"` is
not a positive-integer string, yet `Number('-5') || 30` evaluates to `-5`
(truthy), so the ceiling used is `-5`, not 30. -/
theorem c3_counterexample :
    RATE_LIMIT_MAX_REQUESTS (some "-5") = JsNumber.fin (-5) ∧
    RATE_LIMIT_MAX_REQUESTS (some "-5") ≠ JsNumber.fin 30 := by
  constructor
  · decide
  · decide

/-- C3 amended: the ceiling is the default 30 exactly when the override is
absent, does not match the JS numeric-string grammar (`Number` gives NaN), or
coerces to zero (e.g. the empty or all-whitespace string); a string coercing
to any nonzero number is used as the ceiling as-is — including a negative one
such as `"-5"`.  The used-as-is clause is stated for nonzero integer values of
magnitude at most 2^53, the range on which the runtime's double rounding is
the identity; it covers every valid positive-integer override (also in
whitespace-padded, exponent or hexadecimal form). -/
theorem c3_env_override_amended :
    RATE_LIMIT_MAX_REQUESTS none = JsNumber.fin 30 ∧
    (∀ s : String, jsStringToNumber s = JsNumber.nan →
      RATE_LIMIT_MAX_REQUESTS (some s) = JsNumber.fin 30) ∧
    (∀ s : String, jsStringToNumber s = JsNumber.fin 0 →
      RATE_LIMIT_MAX_REQUESTS (some s) = JsNumber.fin 30) ∧
    (∀ (s : String) (q : Rat), jsStringToNumber s = JsNumber.fin q → q ≠ 0 →
      q.den = 1 → q.num.natAbs ≤ 2 ^ 53 →
      RATE_LIMIT_MAX_REQUESTS (some s) = JsNumber.fin q) := by
  refine ⟨rfl, ?_, ?_, ?_⟩
  · intro s hs
    simp [RATE_LIMIT_MAX_REQUESTS, hs]
  · intro s hs
    simp [RATE_LIMIT_MAX_REQUESTS, hs]
  · intro s q hs hq hd hb
    simp [RATE_LIMIT_MAX_REQUESTS, hs, hq]

/-- C3 amended witness: absent, non-numeric, zero and whitespace-only
overrides give 30; the positive-integer string `"7"` gives 7; the
whitespace-padded `" 5"` gives 5, the exponent form `"1e2"` gives 100 and the
hexadecimal `"0x10"` gives 16 (not the default); the negative `"-5"` gives
-5. -/
theorem c3_witness :
    RATE_LIMIT_MAX_REQUESTS none = JsNumber.fin 30 ∧
    RATE_LIMIT_MAX_REQUESTS (some "banana") = JsNumber.fin 30 ∧
    RATE_LIMIT_MAX_REQUESTS (some "") = JsNumber.fin 30 ∧
    RATE_LIMIT_MAX_REQUESTS (some "0") = JsNumber.fin 30 ∧
    RATE_LIMIT_MAX_REQUESTS (some "7") = JsNumber.fin 7 ∧
    RATE_LIMIT_MAX_REQUESTS (some " 5") = JsNumber.fin 5 ∧
    RATE_LIMIT_MAX_REQUESTS (some "1e2") = JsNumber.fin 100 ∧
    RATE_LIMIT_MAX_REQUESTS (some "0x10") = JsNumber.fin 16 ∧
    RATE_LIMIT_MAX_REQUESTS (some "-5") = JsNumber.fin (-5) :=
  ⟨c3_env_override_amended.1,
   c3_env_override_amended.2.1 "banana" (by decide),
   c3_env_override_amended.2.2.1 "" (by decide),
   c3_env_override_amended.2.2.1 "0" (by decide),
   c3_env_override_amended.2.2.2 "7" 7 (by decide) (by decide) (by decide) (by decide),
   c3_env_override_amended.2.2.2 " 5" 5 (by decide) (by decide) (by decide) (by decide),
   c3_env_override_amended.2.2.2 "1e2" 100 (by decide) (by decide) (by decide) (by decide),
   c3_env_override_amended.2.2.2 "0x10" 16 (by decide) (by decide) (by decide) (by decide),
   c3_env_override_amended.2.2.2 "-5" (-5) (by decide) (by decide) (by decide) (by decide)⟩

/-- C7: a matched request for one ClientKey leaves every other key's cache
slot — and hence the live value any later `get` would see for it — unchanged,
provided the store stays within its capacity bound (fewer than 500 tracked
keys, or at most 500 with the evaluated key already tracked). -/
theorem c7_independent_buckets (limit : Int) (st : Store) (now : Nat) (h : Option String)
    (b : String) (hb : b ≠ clientKeyOf h)
    (hcap : st.length < MAX_TRACKED_IPS ∨
      (st.length ≤ MAX_TRACKED_IPS ∧ (findE (clientKeyOf h) st).isSome = true)) :
    findE b ((proxy limit st (genReq h) now).2) = findE b st ∧
    ∀ t2 : Nat, liveVal ((proxy limit st (genReq h) now).2) b t2 = liveVal st b t2 := by
  have hpm := proxy_matched limit st (genReq h) now (genReq_matched h)
  have hx : (genReq h).xForwardedFor = h := rfl
  rw [hx] at hpm
  have hsnd := congrArg Prod.snd hpm
  simp only at hsnd
  have hlen : (eraseKey (clientKeyOf h) ((lruGet st (clientKeyOf h) now).2)).length + 1 ≤
      MAX_TRACKED_IPS := by
    rcases hcap with hlt | ⟨hle, hsome⟩
    · have h1 := length_eraseKey_le (clientKeyOf h) ((lruGet st (clientKeyOf h) now).2)
      have h2 := length_lruGet_snd_le (clientKeyOf h) st now
      omega
    · obtain ⟨e, hf⟩ := Option.isSome_iff_exists.mp hsome
      have hkey : e.key = clientKeyOf h := by simpa using List.find?_some hf
      have hstep : (eraseKey (clientKeyOf h) ((lruGet st (clientKeyOf h) now).2)).length <
          st.length := by
        rw [lruGet_snd_eq, hf]
        simp only
        split
        · calc (eraseKey (clientKeyOf h) (eraseKey (clientKeyOf h) st)).length
              ≤ (eraseKey (clientKeyOf h) st).length :=
                length_eraseKey_le _ _
            _ < st.length := length_eraseKey_lt (by simp [hf])
        · rw [eraseKey_cons_self hkey]
          calc (eraseKey (clientKeyOf h) (eraseKey (clientKeyOf h) st)).length
              ≤ (eraseKey (clientKeyOf h) st).length :=
                length_eraseKey_le _ _
            _ < st.length := length_eraseKey_lt (by simp [hf])
      omega
  have hkeyeq : findE b ((proxy limit st (genReq h) now).2) = findE b st := by
    rw [hsnd]
    rw [findE_lruSet_other hb ((lruGet st (clientKeyOf h) now).2) _ now hlen]
    exact findE_lruGet_snd hb st now
  refine ⟨hkeyeq, fun t2 => ?_⟩
  rw [liveVal, liveVal]
  exact lruGet_fst_congr hkeyeq t2

/-- C7 witness: a request from `1.1.1.1` leaves the slot of `2.2.2.2` (count 5)
unchanged, both as stored and as observed by a later `get`. -/
theorem c7_witness :
    findE ("2.2.2.2") ((proxy 30 [⟨"2.2.2.2", ⟨5, 0⟩, 0⟩] (genReq (some "1.1.1.1")) 7).2) =
      findE ("2.2.2.2") [⟨"2.2.2.2", ⟨5, 0⟩, 0⟩] ∧
    liveVal ((proxy 30 [⟨"2.2.2.2", ⟨5, 0⟩, 0⟩] (genReq (some "1.1.1.1")) 7).2) ("2.2.2.2") 7 =
      liveVal [⟨"2.2.2.2", ⟨5, 0⟩, 0⟩] ("2.2.2.2") 7 :=
  ⟨(c7_independent_buckets 30 [⟨"2.2.2.2", ⟨5, 0⟩, 0⟩] 7 (some "1.1.1.1") ("2.2.2.2")
      (by decide) (Or.inl (by decide))).1,
   (c7_independent_buckets 30 [⟨"2.2.2.2", ⟨5, 0⟩, 0⟩] 7 (some "1.1.1.1") ("2.2.2.2")
      (by decide) (Or.inl (by decide))).2 7⟩

lemma proxy_step_empty (limit : Int) (k : String) (t0 : Nat) :
    proxy limit [] (genReq (some k)) t0 =
      (respFor limit 1, [⟨clientKeyOf (some k), ⟨1, t0⟩, t0⟩]) := by
  simp [proxy, genPath_matched, genReq, lruGet, findE, List.find?, lruSet,
    eraseKey, List.filter, take_max_cons]

lemma proxy_step_live (limit : Int) (k : String) (c s t0 t : Nat)
    (hlive : t - t0 < RATE_LIMIT_WINDOW) :
    proxy limit [⟨clientKeyOf (some k), ⟨c, s⟩, t0⟩] (genReq (some k)) t =
      (respFor limit (c + 1), [⟨clientKeyOf (some k), ⟨c + 1, s⟩, t⟩]) := by
  have hnst : ¬ (RATE_LIMIT_WINDOW ≤ t - t0) := by omega
  simp [proxy, genPath_matched, genReq, lruGet, findE, List.find?, hnst,
    lruSet, eraseKey, List.filter, take_max_cons]

lemma gapsOk_cons {prev t : Nat} {ts : List Nat} (hg : gapsOk prev (t :: ts) = true) :
    prev ≤ t ∧ t - prev < RATE_LIMIT_WINDOW ∧ gapsOk t ts = true := by
  simp only [gapsOk, Bool.and_eq_true, decide_eq_true_eq] at hg
  exact ⟨hg.1.1, hg.1.2, hg.2⟩

lemma range_map_succ (f : Nat → Response) (n : Nat) :
    (List.range (n + 1)).map f = f 0 :: (List.range n).map (fun i => f (i + 1)) := by
  rw [List.range_succ_eq_map, List.map_cons, List.map_map]
  rfl

lemma runTimes_live (limit : Int) (k : String) (s : Nat) :
    ∀ (ts : List Nat) (c t0 : Nat), gapsOk t0 ts = true →
      runTimes limit k [⟨clientKeyOf (some k), ⟨c, s⟩, t0⟩] ts =
        ([⟨clientKeyOf (some k), ⟨c + ts.length, s⟩, ts.getLastD t0⟩],
         (List.range ts.length).map (fun i => respFor limit (c + i + 1))) := by
  intro ts
  induction ts with
  | nil =>
    intro c t0 _
    simp [runTimes]
  | cons t ts ih =>
    intro c t0 hg
    obtain ⟨h1, h2, h3⟩ := gapsOk_cons hg
    simp only [runTimes]
    rw [proxy_step_live limit k c s t0 t h2]
    simp only
    rw [ih (c + 1) t h3]
    simp only [List.length_cons, List.getLastD_cons]
    have harg : ∀ i : Nat, c + (i + 1) + 1 = c + 1 + i + 1 := fun i => by omega
    rw [range_map_succ (fun i => respFor limit (c + i + 1)) ts.length]
    simp only [harg]
    have hcnt : c + 1 + ts.length = c + (ts.length + 1) := by omega
    rw [hcnt]

lemma runTimes_from_empty (limit : Int) (k : String) (t0 : Nat) (ts : List Nat)
    (hg : gapsOk t0 ts = true) :
    runTimes limit k [] (t0 :: ts) =
      ([⟨clientKeyOf (some k), ⟨ts.length + 1, t0⟩, ts.getLastD t0⟩],
       (List.range (ts.length + 1)).map (fun i => respFor limit (i + 1))) := by
  simp only [runTimes]
  rw [proxy_step_empty limit k t0]
  simp only
  rw [runTimes_live limit k t0 ts 1 t0 hg]
  have harg : ∀ i : Nat, i + 1 + 1 = 1 + i + 1 := fun i => by omega
  rw [range_map_succ (fun i => respFor limit (i + 1)) ts.length]
  simp only [harg]
  have hcnt : 1 + ts.length = ts.length + 1 := by omega
  rw [hcnt]

lemma runTimes_resp_get (limit : Int) (k : String) (t0 : Nat) (ts : List Nat)
    (hg : gapsOk t0 ts = true) (N : Nat) (hN : N < ts.length + 1) :
    ((runTimes limit k [] (t0 :: ts)).2)[N]? = some (respFor limit (N + 1)) := by
  rw [runTimes_from_empty limit k t0 ts hg]
  simp only
  rw [List.getElem?_map, List.getElem?_range hN]
  rfl

lemma respFor_status (limit : Int) (n : Nat) :
    (respFor limit n).status = if (n : Int) > limit then 429 else 200 := by
  rw [respFor]
  split <;> rfl

lemma headerVal_reject_remaining (limit : Int) (n : Nat) (hgt : (n : Int) > limit) :
    headerVal (respFor limit n) ("X-RateLimit-Remaining") = some ("0") := by
  rw [respFor, if_pos hgt]
  rfl

lemma headerVal_reject_retry (limit : Int) (n : Nat) (hgt : (n : Int) > limit) :
    headerVal (respFor limit n) ("Retry-After") = some ("900") := by
  rw [respFor, if_pos hgt]
  rfl

lemma headerVal_allow_remaining (limit : Int) (n : Nat) (hle : ¬ ((n : Int) > limit)) :
    headerVal (respFor limit n) ("X-RateLimit-Remaining") =
      some (toString (max 0 (limit - n))) := by
  rw [respFor, if_neg hle]
  rfl

/-- C1: for every ClientKey and configured ceiling, running a sequence of
matched requests within one window (each gap shorter than the window, so the
counter never expires), the Nth response (index N-1) carries
`X-RateLimit-Remaining` equal to `max(0, limit - N)`, is allowed (status 200)
exactly when `N ≤ limit`, and is rejected (status 429, with `Retry-After`
present, value "900") exactly when `N > limit` — so with the default ceiling
30, requests 1–30 are allowed with remaining 29 down to 0 and request 31 is
the first rejected. -/
theorem c1_monotonic_counting_boundary (limit : Int) (k : String) (t0 : Nat)
    (ts : List Nat) (hg : gapsOk t0 ts = true) (N : Nat) (hN : N < ts.length + 1) :
    ∃ r, ((runTimes limit k [] (t0 :: ts)).2)[N]? = some r ∧
      headerVal r ("X-RateLimit-Remaining") =
        some (toString (max 0 (limit - ((N : Int) + 1)))) ∧
      (((N : Int) + 1 ≤ limit) ↔ r.status = 200) ∧
      ((limit < (N : Int) + 1) ↔ r.status = 429) ∧
      (limit < (N : Int) + 1 → headerVal r ("Retry-After") = some ("900")) := by
  have hcast : ((N + 1 : Nat) : Int) = (N : Int) + 1 := by push_cast; ring
  refine ⟨respFor limit (N + 1), runTimes_resp_get limit k t0 ts hg N hN, ?_, ?_, ?_, ?_⟩
  · by_cases hgt : ((N + 1 : Nat) : Int) > limit
    · rw [headerVal_reject_remaining limit (N + 1) hgt]
      have hmax : max 0 (limit - ((N : Int) + 1)) = 0 := by
        rw [← hcast]
        omega
      rw [hmax]
      rfl
    · rw [headerVal_allow_remaining limit (N + 1) hgt, hcast]
  · rw [respFor_status]
    by_cases hgt : ((N + 1 : Nat) : Int) > limit
    · rw [if_pos hgt]
      rw [hcast] at hgt
      constructor
      · intro hle
        omega
      · intro habs
        exact absurd habs (by decide)
    · rw [if_neg hgt]
      rw [hcast] at hgt
      constructor
      · intro _
        rfl
      · intro _
        omega
  · rw [respFor_status]
    by_cases hgt : ((N + 1 : Nat) : Int) > limit
    · rw [if_pos hgt]
      rw [hcast] at hgt
      constructor
      · intro _
        rfl
      · intro _
        omega
    · rw [if_neg hgt]
      rw [hcast] at hgt
      constructor
      · intro hlt
        omega
      · intro habs
        exact absurd habs (by decide)
  · intro hlt
    have hgt : ((N + 1 : Nat) : Int) > limit := by
      rw [hcast]
      omega
    exact headerVal_reject_retry limit (N + 1) hgt

/-- C1 witness: with the default ceiling 30, 31 same-key requests inside one
window — the 31st (index 30) is the first rejected, with remaining "0" and a
present Retry-After. -/
theorem c1_witness :
    ∃ r, ((runTimes 30 ("1.2.3.4") [] (0 :: List.replicate 30 0)).2)[30]? = some r ∧
      headerVal r ("X-RateLimit-Remaining") =
        some (toString (max 0 (30 - (((30 : Nat) : Int) + 1)))) ∧
      ((((30 : Nat) : Int) + 1 ≤ 30) ↔ r.status = 200) ∧
      ((30 < ((30 : Nat) : Int) + 1) ↔ r.status = 429) ∧
      (30 < ((30 : Nat) : Int) + 1 → headerVal r ("Retry-After") = some ("900")) :=
  c1_monotonic_counting_boundary 30 "1.2.3.4" 0 (List.replicate 30 0) (by decide) 30
    (by decide)

/-- C2: (i) the counter mutation is unconditional: after any matched request
the stored WindowCounter of its ClientKey is the incremented previous live
count (even when the response is the 429 rejection — the branch does not
affect the store); (ii) hence in a same-key run within one window, once a
request is rejected every later request is rejected too. -/
theorem c2_rejected_requests_still_count :
    (∀ (limit : Int) (st : Store) (now : Nat) (h : Option String),
      findVal ((proxy limit st (genReq h) now).2) (clientKeyOf h) =
        some { count := (tokenOf st (clientKeyOf h) now).count + 1,
               start := (tokenOf st (clientKeyOf h) now).start }) ∧
    (∀ (limit : Int) (k : String) (t0 : Nat) (ts : List Nat) (N M : Nat),
      gapsOk t0 ts = true → N ≤ M → M < ts.length + 1 →
      statusAt ((runTimes limit k [] (t0 :: ts)).2) N = some 429 →
      statusAt ((runTimes limit k [] (t0 :: ts)).2) M = some 429) := by
  constructor
  · exact findVal_proxy_snd
  · intro limit k t0 ts N M hg hNM hM h429
    have hN : N < ts.length + 1 := lt_of_le_of_lt hNM hM
    have hNr := runTimes_resp_get limit k t0 ts hg N hN
    have hMr := runTimes_resp_get limit k t0 ts hg M hM
    rw [statusAt, hNr] at h429
    rw [statusAt, hMr]
    simp only [Option.map_some', Option.some.injEq] at h429 ⊢
    rw [respFor_status] at h429 ⊢
    by_cases hgtN : ((N + 1 : Nat) : Int) > limit
    · have hgtM : ((M + 1 : Nat) : Int) > limit := by
        push_cast at hgtN ⊢
        omega
      rw [if_pos hgtM]
    · rw [if_neg hgtN] at h429
      exact absurd h429 (by decide)

/-- C2 witness: with ceiling 1, the second same-key request is rejected and the
third is rejected too; and a matched request stores the incremented counter. -/
theorem c2_witness :
    findVal ((proxy 1 [] (genReq (some "5.5.5.5")) 0).2) (clientKeyOf (some "5.5.5.5")) =
      some { count := (tokenOf ([] : Store) (clientKeyOf (some "5.5.5.5")) 0).count + 1,
             start := (tokenOf ([] : Store) (clientKeyOf (some "5.5.5.5")) 0).start } ∧
    statusAt ((runTimes 1 ("5.5.5.5") [] (0 :: [0, 0])).2) 2 = some 429 :=
  ⟨c2_rejected_requests_still_count.1 1 [] 0 (some "5.5.5.5"),
   c2_rejected_requests_still_count.2 1 "5.5.5.5" 0 [0, 0] 1 2 (by decide) (by decide)
     (by decide) (by decide)⟩

end EsrbGate
